import Mathlib

/-!
Shallow embedding of the auto_bot repository (a Telegram bot that
periodically generates LinkedIn posts from news feeds), covering the
services and repositories referenced by the verified claims:

* `services/ai_service.py` — generation retry loop, model-candidate
  construction and post normalization;
* `services/linkedin_service.py` — publish call and its error taxonomy;
* `services/linkedin_token_service.py` — credential resolution;
* `services/news_service.py` — feed-entry filtering, dedup and ranking;
* `services/autopost_service.py` — enable/disable/run-once orchestration;
* `repositories/autopost_settings_repository.py` — the settings record.

Python strings are modelled as `List Char` (Python `len` counts code
points, as does `List.length` here).  Stateful operations are modelled as
explicit state passing; network collaborators are oracles passed in as
data.  Fallible code returns `Except`.
-/

namespace AutoBot

/-- Python strings are modelled as lists of characters. -/
abbrev Str := List Char

/-- Whitespace recognised by Python `str.strip` / regex `\s` for the ASCII
range (space, tab, newline, carriage return, vertical tab, form feed).
Python additionally treats some non-ASCII Unicode spaces as whitespace;
none of the strings manipulated by this program contain them. -/
def isPySpace (c : Char) : Bool :=
  c == ' ' || c == '\t' || c == '\n' || c == '\r' || c == '\x0b' || c == '\x0c'

/-- Python `str.lstrip()`. -/
def pyLstrip (s : Str) : Str := s.dropWhile isPySpace

/-- Python `str.rstrip()`. -/
def pyRstrip (s : Str) : Str := s.rdropWhile isPySpace

/-- Python `str.strip()`. -/
def pyStrip (s : Str) : Str := pyRstrip (pyLstrip s)

/-- Python `str.lower()`, for the ASCII letters that occur in the
program's keyword and model-name comparisons. -/
def pyLower (s : Str) : Str := s.map Char.toLower

/-- Python's substring test `pat in s`. -/
def strInfixOf (pat : Str) : Str → Bool
  | [] => pat.isEmpty
  | c :: rest => pat.isPrefixOf (c :: rest) || strInfixOf pat rest

/-- Word characters of the regex class `\w` under `re.UNICODE`, restricted
to the ranges occurring in this program's data: ASCII alphanumerics and
underscore, plus the Cyrillic block used by the Ukrainian default texts. -/
def isWordChar (c : Char) : Bool :=
  c.isAlphanum || c == '_' || (0x400 ≤ c.toNat && c.toNat ≤ 0x4ff)

/-- Number of matches of the regex `#\w+` in a string
(`re.findall(r"#\w+", s)`).  Since `#` is not a word character, the
matches of `#\w+` are exactly the positions holding a `#` that is
immediately followed by a word character, so the count can be computed by
scanning consecutive pairs. -/
def hashtagCount : Str → Nat
  | [] => 0
  | [_] => 0
  | a :: b :: rest =>
      (if a == '#' && isWordChar b then 1 else 0) + hashtagCount (b :: rest)

/-! ## `services/ai_service.py` -/

/-- Enumeration `PostStyle` from `services/ai_service.py`. -/
inductive PostStyle
  | expert
  | provocative
  | analytical
  | short
deriving DecidableEq, Repr

/-- The `.value` of a `PostStyle` member (the strings stored in
settings). -/
def styleValue : PostStyle → Str
  | .expert => "expert".data
  | .provocative => "provocative".data
  | .analytical => "analytical".data
  | .short => "short".data

/-- Inverse of `styleValue`: the `PostStyle(raw)` constructor call in
`run_once`, which raises `ValueError` (modelled as `none`) on an
unrecognised string. -/
def parseStyle (s : Str) : Option PostStyle :=
  if s = "expert".data then some .expert
  else if s = "provocative".data then some .provocative
  else if s = "analytical".data then some .analytical
  else if s = "short".data then some .short
  else none

/-- Style-dependent minimum length enforced by `_normalize_post`
(numbers from `services/ai_service.py` lines 161 and 167). -/
def minLen : PostStyle → Nat
  | .short => 180
  | _ => 550

/-- Style-dependent truncation cap used by `_normalize_post`
(numbers from `services/ai_service.py` lines 163 and 169). -/
def maxLen : PostStyle → Nat
  | .short => 900
  | _ => 1600

/-- First half of `_normalize_post`: the style-dependent minimum-length
check (raising `AIValidationError`, modelled as `Except.error`) and the
truncation `cleaned[:cap].rstrip()` applied when the text exceeds the
style cap. -/
def checkAndTruncate (style : PostStyle) (cleaned : Str) : Except Str Str :=
  match style with
  | .short =>
      if cleaned.length < 180 then .error "Short style post is too short".data
      else if cleaned.length > 900 then .ok (pyRstrip (cleaned.take 900))
      else .ok cleaned
  | _ =>
      if cleaned.length < 550 then .error "Post is too short for non-short style".data
      else if cleaned.length > 1600 then .ok (pyRstrip (cleaned.take 1600))
      else .ok cleaned

/-- The list `default_tags` of `_normalize_post`. -/
def defaultTags : List Str :=
  ["#AI".data, "#Tech".data, "#LinkedIn".data, "#Innovation".data, "#Startup".data]

/-- Hashtag step of `_normalize_post`: when fewer than 3 `#\w+` tokens are
present, append `"\n" + " ".join(default_tags[:missing])`. -/
def ensureHashtags (t : Str) : Str :=
  if hashtagCount t < 3 then
    t ++ ('\n' :: (" ".data).intercalate (defaultTags.take (3 - hashtagCount t)))
  else t

/-- Closing-question step of `_normalize_post`: when the text does not end
with `?`, append the fixed closing question. -/
def ensureQuestion (t : Str) : Str :=
  if t.getLast? = some '?' then t
  else t ++ "\n\nЩо ви про це думаєте?".data

/-- Paragraph-break step of `_normalize_post`: when the text has no
newline, split it at `len // 2` into two paragraphs, stripping the cut
edges. -/
def ensureParagraphBreak (t : Str) : Str :=
  if t.contains '\n' then t
  else
    pyRstrip (t.take (t.length / 2)) ++ '\n' :: '\n' :: pyLstrip (t.drop (t.length / 2))

/-- `AIService._normalize_post` (`services/ai_service.py` lines 156-185):
strip, style-dependent minimum check and truncation, then the hashtag,
closing-question and paragraph-break repairs, in that order. -/
def normalizePost (post : Str) (style : PostStyle) : Except Str Str :=
  (checkAndTruncate style (pyStrip post)).map fun core =>
    ensureParagraphBreak (ensureQuestion (ensureHashtags core))

/-- `AIService._build_model_candidates` (`services/ai_service.py` lines
187-202). -/
def buildModelCandidates (apiUrl model : Str) : List Str :=
  let modelName := pyStrip model
  if modelName = [] then [modelName]
  else if ¬ (strInfixOf "integrate.api.nvidia.com".data apiUrl) then [modelName]
  else if modelName.contains '/' then [modelName]
  else if "qwen".data.isPrefixOf (pyLower modelName) then
    ["qwen/".data ++ modelName, modelName]
  else [modelName]

/-- Outcome of evaluating `response.json()` followed by the access path
`data["choices"][0]["message"]["content"]` in `_request_generation`.
Each Python shape of the body is classified by the exception (or value)
that path produces:

* `content c` — the path evaluates to the string `c`;
* `notString` — the path evaluates but not to a string, so the
  `isinstance` check raises `ValueError("Empty AI response content")`;
* `keyError` — a dict lookup on the path misses (e.g. no `"choices"`
  key), raising `KeyError`;
* `indexError` — a list index is out of range (e.g. a body of
  `\x7b"choices": []\x7d`), raising `IndexError`;
* `typeError` — a step of the path is applied to a non-subscriptable or
  wrongly-typed value (e.g. `"choices"` holding `null`), raising
  `TypeError`;
* `notJson` — the body is not valid JSON, so `response.json()` raises
  `json.JSONDecodeError`, a subclass of `ValueError`. -/
inductive ContentResult
  | content (c : Str)
  | notString
  | keyError
  | indexError
  | typeError
  | notJson
deriving DecidableEq, Repr

/-- Outcome of the HTTPS call issued by `_request_generation` for one
model name: a transport failure (`httpx.HTTPError`), or a response with a
status code and the classified body shape. -/
inductive TranspResult
  | netError
  | resp (status : Nat) (content : ContentResult)

/-- Exceptions that the `except` clause of `generate_post` (line 61)
catches: `httpx.HTTPError` (network failures and `raise_for_status` on
any non-2xx status), `KeyError`, `ValueError` (the 404 message, empty or
non-string content, and `json.JSONDecodeError`) and
`AIValidationError`. -/
inductive GenExc
  | httpError
  | keyError
  | valueError (msg : Str)
  | validationError (msg : Str)
deriving DecidableEq, Repr

/-- Exceptions that escape `_request_generation` but are NOT in the
`except` tuple of `generate_post`: `IndexError` and `TypeError` from the
content access path.  They propagate out of `generate_post` itself. -/
inductive UncaughtExc
  | indexError
  | typeError
deriving DecidableEq, Repr

/-- An exception raised by one iteration of the candidate loop, split by
whether the `except` clause of `generate_post` catches it. -/
inductive AttemptExc
  | caught (e : GenExc)
  | uncaught (u : UncaughtExc)
deriving DecidableEq, Repr

/-- How a whole `generate_post` call fails: `wrapped last` is the
`AIServiceError("AI generation failed after retries: ...")` raised after
exhausting the attempts, carrying `last_error`; `crash u` is an uncaught
`IndexError`/`TypeError` propagating out of the function. -/
inductive GenFailure
  | wrapped (last : Option GenExc)
  | crash (u : UncaughtExc)
deriving DecidableEq, Repr

/-- The 404 error message raised by `_request_generation`. -/
def msg404 : Str :=
  "NVIDIA endpoint returned 404. Usually this means model id is unavailable for your key.".data

/-- Stand-in for the message of a `json.JSONDecodeError` (its exact text
is produced by the json module). -/
def msgNotJson : Str := "JSON decode error".data

/-- `AIService._request_generation` (`services/ai_service.py` lines
74-116), abstracted over its HTTPS call; the transport takes the 0-based
index of the call so responses may differ between attempts (the prompt
payload does not influence the control flow modelled here).  A 404 raises
`ValueError`; any other non-2xx status raises `httpx.HTTPStatusError`
via `raise_for_status` (httpx raises whenever the status is outside
200-299); then the body is parsed and the content path evaluated, with
each shape mapped to its exception per `ContentResult` — `IndexError`
and `TypeError` are marked uncaught; finally blank or non-string content
raises `ValueError("Empty AI response content")`. -/
def requestGeneration (transport : Nat → Str → TranspResult) (callIdx : Nat)
    (model : Str) : Except AttemptExc Str :=
  match transport callIdx model with
  | .netError => .error (.caught .httpError)
  | .resp status content =>
      if status = 404 then .error (.caught (.valueError msg404))
      else if ¬ (200 ≤ status ∧ status ≤ 299) then .error (.caught .httpError)
      else
        match content with
        | .notJson => .error (.caught (.valueError msgNotJson))
        | .keyError => .error (.caught .keyError)
        | .indexError => .error (.uncaught .indexError)
        | .typeError => .error (.uncaught .typeError)
        | .notString => .error (.caught (.valueError "Empty AI response content".data))
        | .content c =>
            if pyStrip c = [] then
              .error (.caught (.valueError "Empty AI response content".data))
            else .ok (pyStrip c)

/-- The body of one attempt of `generate_post`: the
`for model in model_candidates` loop, entered with `callIdx` HTTPS calls
already made.  In the Python source an exception raised by
`_request_generation` or `_normalize_post` propagates out of the loop
(to the `try`/`except` around it, or — for uncaught exception classes —
out of `generate_post`), so the loop never advances past its first
iteration: the remaining candidates (`_rest`) are dead code.  The `[]`
case models an empty candidate list, where the loop body never runs and
control falls off the end of the `try` block with no exception
(`Except.error none`). -/
def attemptModels (transport : Nat → Str → TranspResult) (style : PostStyle)
    (callIdx : Nat) : List Str → Except (Option AttemptExc) Str × List Str
  | [] => (.error none, [])
  | m :: _rest =>
      match requestGeneration transport callIdx m with
      | .error exc => (.error (some exc), [m])
      | .ok text =>
          match normalizePost text style with
          | .error v => (.error (some (.caught (.validationError v))), [m])
          | .ok normalized => (.ok normalized, [m])

/-- Observable outcome of a `generate_post` call: the returned text or
the failure, together with the model names requested (in order) and the
`asyncio.sleep` durations. -/
structure GenRun where
  result : Except GenFailure Str
  requested : List Str
  delays : List ℚ
deriving Repr

/-- The `for attempt in range(1, max_retries + 1)` loop of
`generate_post`: `remaining` counts the attempts still available,
`attempt` is the 1-based attempt number and `calls` the number of HTTPS
calls already issued; `last` is `last_error`, `req`/`del` accumulate the
request trace and the sleeps.  A caught exception updates `last_error`
and — only when `attempt < max_retries` (here: `remaining > 1`) — sleeps
`retry_backoff_seconds * attempt` before the next attempt; an uncaught
exception aborts the whole call at once, with no sleep, no further
attempt and no wrapping `AIServiceError`. -/
def genLoop (transport : Nat → Str → TranspResult) (style : PostStyle)
    (candidates : List Str) (backoff : ℚ) :
    Nat → Nat → Nat → Option GenExc → List Str → List ℚ → GenRun
  | 0, _attempt, _calls, last, req, del => ⟨.error (.wrapped last), req, del⟩
  | remaining + 1, attempt, calls, last, req, del =>
      match attemptModels transport style calls candidates with
      | (.ok v, r) => ⟨.ok v, req ++ r, del⟩
      | (.error none, r) =>
          genLoop transport style candidates backoff remaining (attempt + 1)
            (calls + r.length) last (req ++ r) del
      | (.error (some (.uncaught u)), r) => ⟨.error (.crash u), req ++ r, del⟩
      | (.error (some (.caught e)), r) =>
          genLoop transport style candidates backoff remaining (attempt + 1)
            (calls + r.length) (some e) (req ++ r)
            (if remaining = 0 then del else del ++ [backoff * (attempt : ℚ)])

/-- `AIService.generate_post` (`services/ai_service.py` lines 50-72),
abstracted over the HTTPS transport. -/
def generatePost (transport : Nat → Str → TranspResult) (style : PostStyle)
    (candidates : List Str) (maxRetries : Nat) (backoff : ℚ) : GenRun :=
  genLoop transport style candidates backoff maxRetries 1 0 none [] []

/-! ## `services/linkedin_service.py` -/

/-- Outcome of the HTTPS POST issued by `publish_post`: a transport
failure, or a response with a status code, the `x-restli-id` header
(empty when absent, matching `headers.get(..., "")`), the `id` field of
the JSON body (likewise) and the body text. -/
inductive PubResp
  | netError
  | resp (status : Nat) (restliId : Str) (bodyId : Str) (bodyText : Str)

/-- The 401 error message of `publish_post`. -/
def msgInvalidToken : Str :=
  "LinkedIn access token is invalid or expired. Reconnect account via /linkedin_connect.".data

/-- `LinkedInService.publish_post` (`services/linkedin_service.py` lines
25-78), abstracted over its HTTPS call.  Errors are the messages of the
`LinkedInServiceError` exceptions it raises. -/
def publishPost (response : PubResp) (text accessToken personId : Str) :
    Except Str Str :=
  let token := pyStrip accessToken
  let person := pyStrip personId
  if token = [] then .error "LinkedIn access token is missing".data
  else if person = [] then .error "LinkedIn person id is missing".data
  else
    match response with
    | .netError => .error "LinkedIn HTTP error".data
    | .resp status restliId bodyId bodyText =>
        if status ≠ 201 ∧ status ≠ 202 then
          if status = 401 then .error msgInvalidToken
          else .error ("LinkedIn API returned status".data ++ bodyText.take 500)
        else
          let postUrn := if restliId ≠ [] then restliId else bodyId
          .ok (if postUrn ≠ [] then postUrn else "published".data)

/-! ## `repositories/linkedin_token_repository.py` and
`services/linkedin_token_service.py` -/

/-- `StoredLinkedInAccount` from
`repositories/linkedin_token_repository.py`. -/
structure StoredLinkedInAccount where
  access_token : Str
  expires_at_epoch : Int
  person_id : Str
  refresh_token : Option Str := none
  name : Option Str := none
  email : Option Str := none
deriving DecidableEq, Repr

/-- `LinkedInCredentials` from `services/linkedin_token_service.py`. -/
structure LinkedInCredentials where
  access_token : Str
  person_id : Str
  source : Str
  expires_at_epoch : Option Int := none
  name : Option Str := none
  email : Option Str := none
deriving DecidableEq, Repr

/-- `LinkedInTokenService._sanitize_env_value` (lines 88-98): trim, then
treat empty or placeholder-looking values (`your_...` prefix or a
`your-domain.com` occurrence, case-insensitively) as absent. -/
def sanitizeEnvValue (rawValue : Str) : Str :=
  let value := pyStrip rawValue
  let lowered := pyLower value
  if value = [] then []
  else if "your_".data.isPrefixOf lowered then []
  else if strInfixOf "your-domain.com".data lowered then []
  else value

/-- `LinkedInTokenService._is_token_valid` (lines 84-86):
`expires_at_epoch > now + 60`. -/
def isTokenValid (account : StoredLinkedInAccount) (nowEpoch : Int) : Bool :=
  account.expires_at_epoch > nowEpoch + 60

/-- `LinkedInTokenService.get_credentials_for_user` (lines 32-51),
abstracted over the repository lookup (`stored`) and the clock
(`nowEpoch`); `fallbackToken`/`fallbackPerson` are the raw constructor
arguments, sanitized here as the constructor does. -/
def getCredentialsForUser (stored : Option StoredLinkedInAccount)
    (fallbackToken fallbackPerson : Str) (nowEpoch : Int) :
    Option LinkedInCredentials :=
  let fbToken := sanitizeEnvValue fallbackToken
  let fbPerson := sanitizeEnvValue fallbackPerson
  match stored with
  | some account =>
      if isTokenValid account nowEpoch then
        some ⟨account.access_token, account.person_id, "oauth".data,
          some account.expires_at_epoch, account.name, account.email⟩
      else if fbToken ≠ [] ∧ fbPerson ≠ [] then
        some ⟨fbToken, fbPerson, "env".data, none, none, none⟩
      else none
  | none =>
      if fbToken ≠ [] ∧ fbPerson ≠ [] then
        some ⟨fbToken, fbPerson, "env".data, none, none, none⟩
      else none

/-! ## `services/news_service.py` -/

/-- `NewsItem` from `services/news_service.py`.  `published_at` is an
epoch timestamp; the pydantic length constraints (`title` at least 3,
`link` at least 5) are enforced at construction in `buildItems`. -/
structure NewsItem where
  title : Str
  summary : Str
  link : Str
  published_at : Option Int := none
deriving DecidableEq, Repr

/-- One feed entry as produced by `feedparser`, before the cleaning done
in `fetch_latest_news`: the raw `title`, `link` and `summary` strings and
the timestamp extracted by `_extract_published_at`. -/
structure RawEntry where
  title : Str
  link : Str
  summary : Str
  published_at : Option Int := none
deriving Repr

/-- Recursion core of the regex-`sub` replacing every HTML tag `<[^>]+>`
with a space: at a `<` followed by at least one non-`>` character and
then a `>`, the whole tag is replaced by one space and scanning resumes
after the `>`; any other character (including a `<` with no such closing
`>`) is kept verbatim.  The `steps` argument merely bounds the recursion
to keep it structural (each step consumes at least one character, so
`stripTags` below instantiates it with the string length). -/
def stripTagsGo : Nat → Str → Str
  | 0, s => s
  | _ + 1, [] => []
  | steps + 1, c :: rest =>
      if c = '<' then
        match rest.takeWhile (fun d => d ≠ '>'), rest.dropWhile (fun d => d ≠ '>') with
        | _ :: _, _ :: after => ' ' :: stripTagsGo steps after
        | _, _ => c :: stripTagsGo steps rest
      else c :: stripTagsGo steps rest

/-- The regex-`sub` of `_clean_summary` replacing every HTML tag
`<[^>]+>` with a space. -/
def stripTags (s : Str) : Str := stripTagsGo s.length s

/-- Recursion core of the regex-`sub` collapsing every maximal run of
whitespace (`\s+`) into a single space: `prevSpace` records whether the
previous character belonged to a whitespace run already emitted as one
space. -/
def collapseGo (prevSpace : Bool) : Str → Str
  | [] => []
  | c :: rest =>
      if isPySpace c then
        if prevSpace then collapseGo true rest
        else ' ' :: collapseGo true rest
      else c :: collapseGo false rest

/-- The regex-`sub` of `_clean_summary` collapsing every maximal run of
whitespace (`\s+`) into a single space. -/
def collapseSpaces (s : Str) : Str := collapseGo false s

/-- `NewsService._clean_summary` (lines 109-112): strip tags, collapse
whitespace, strip, truncate to 600 characters. -/
def cleanSummary (summary : Str) : Str :=
  (pyStrip (collapseSpaces (stripTags summary))).take 600

/-- `NewsService._matches_keywords` (lines 105-107): the lowered
`"{title} {summary}"` haystack must contain one of the (lowered)
configured keywords as a substring. -/
def matchesKeywords (keywords : List Str) (title summary : Str) : Bool :=
  keywords.any fun kw =>
    strInfixOf (pyLower kw) (pyLower (title ++ ' ' :: summary))

/-- The entry loop of `fetch_latest_news` (lines 52-74): strip title and
link, clean the summary, skip entries with an empty title or link or
without a keyword match, and construct `NewsItem`s.  Construction
enforces the pydantic field constraints of `NewsItem`
(`title` of minimum length 3, `link` of minimum length 5); a violation
raises a `ValidationError`, modelled as `Except.error ()` aborting the
whole fetch. -/
def buildItems (keywords : List Str) : List RawEntry → Except Unit (List NewsItem)
  | [] => .ok []
  | e :: rest =>
      let title := pyStrip e.title
      let link := pyStrip e.link
      let summary := cleanSummary (pyStrip e.summary)
      if title = [] ∨ link = [] then buildItems keywords rest
      else if ¬ matchesKeywords keywords title summary then buildItems keywords rest
      else if title.length < 3 ∨ link.length < 5 then .error ()
      else (buildItems keywords rest).map fun items =>
        ⟨title, summary, link, e.published_at⟩ :: items

/-- The `unique` dict loop of `fetch_latest_news` (lines 78-81): `acc` is
the insertion-ordered map (`dict` preserves insertion order, so its
`values()` are the first occurrences in encounter order). -/
def dedupGo (acc : List NewsItem) : List NewsItem → List NewsItem
  | [] => acc
  | item :: rest =>
      if acc.any (fun x => x.link == item.link) then dedupGo acc rest
      else dedupGo (acc ++ [item]) rest

/-- Deduplication by `link`, keeping the first occurrence encountered. -/
def dedupByLink (items : List NewsItem) : List NewsItem := dedupGo [] items

/-- The sort key of `fetch_latest_news` (line 85):
`item.published_at or datetime.min`, so a missing timestamp sorts below
every present one. -/
def sortKey (item : NewsItem) : WithBot ℤ :=
  match item.published_at with
  | none => ⊥
  | some t => (t : WithBot ℤ)

/-- Ordering used for the most-recent-first sort: `a` may come before `b`
when `b`'s key is at most `a`'s (descending).  Python's `sorted` with
`reverse=True` is a stable descending sort, as is `List.insertionSort`
with this relation. -/
def newsLe (a b : NewsItem) : Prop := sortKey b ≤ sortKey a

instance : DecidableRel newsLe := fun a b =>
  inferInstanceAs (Decidable (sortKey b ≤ sortKey a))

/-- `NewsService.fetch_latest_news` (lines 48-89) from the parsed feed
entries onward: build and filter items, deduplicate by link, sort by
published timestamp descending, truncate to `limit`. -/
def fetchLatestNews (keywords : List Str) (limit : Nat)
    (entries : List RawEntry) : Except Unit (List NewsItem) :=
  (buildItems keywords entries).map fun rawItems =>
    (List.insertionSort newsLe (dedupByLink rawItems)).take limit

/-! ## `repositories/autopost_settings_repository.py` and
`services/autopost_service.py` -/

/-- `AutopostSettings` from
`repositories/autopost_settings_repository.py`. -/
structure AutopostSettings where
  enabled : Bool := false
  chat_id : Option Int := none
  owner_user_id : Option Int := none
  interval_minutes : Int := 120
  style : Str := "analytical".data
  last_posted_news_link : Option Str := none
  last_run_epoch : Option Int := none
deriving DecidableEq, Repr

/-- The default settings returned when the storage file is absent. -/
def defaultSettings : AutopostSettings := {}

/-- State owned by `AutopostService`: the persisted settings and the
single APScheduler job slot keyed by `JOB_ID` (`none` when no timer is
installed; `some interval` records the installed `IntervalTrigger`). -/
structure SchedState where
  settings : AutopostSettings
  timer : Option Int := none
deriving DecidableEq, Repr

/-- `AutopostService._schedule_job` (lines 156-175): remove any existing
job, fail if `chat_id` is absent, then install the interval timer under
the fixed job id (`replace_existing=True`). -/
def scheduleJob (state : SchedState) (settings : AutopostSettings) :
    Except Str SchedState :=
  let cleared := { state with timer := none }
  match settings.chat_id with
  | none => .error "Cannot schedule autopost without chat_id".data
  | some _ => .ok { cleared with timer := some settings.interval_minutes }

/-- `AutopostService.enable` (lines 63-78).  The returned state is the
state after the call even on failure (the interval check happens before
any read, write or scheduling). -/
def enable (chatId ownerUserId intervalMinutes : Int) (style : PostStyle)
    (state : SchedState) : SchedState × Except Str AutopostSettings :=
  if intervalMinutes < 30 ∨ intervalMinutes > 1440 then
    (state, .error "Interval must be between 30 and 1440 minutes".data)
  else
    let settings := { state.settings with
      enabled := true
      chat_id := some chatId
      owner_user_id := some ownerUserId
      interval_minutes := intervalMinutes
      style := styleValue style }
    let saved := { state with settings := settings }
    match scheduleJob saved settings with
    | .error e => (saved, .error e)
    | .ok scheduled => (scheduled, .ok settings)

/-- `AutopostService.disable` (lines 80-86): persist `enabled := false`,
remove the timer if present, return the persisted settings. -/
def disable (state : SchedState) : SchedState × AutopostSettings :=
  let settings := { state.settings with enabled := false }
  ({ state with settings := settings, timer := none }, settings)

/-- `AutopostService._select_news_to_post` (lines 182-189): the first
item in ranked order whose link differs from the cursor. -/
def selectNewsToPost : List NewsItem → Option Str → Option NewsItem
  | [], _ => none
  | item :: rest, lastLink =>
      if some item.link ≠ lastLink then some item
      else selectNewsToPost rest lastLink

/-- Collaborator responses consumed by one `run_once` call: the ranked
news the news service returns, the credential-resolver result for the
owner, the generation outcome for the selected item and the publish
response. -/
structure RunEnv where
  news : List NewsItem
  creds : Option LinkedInCredentials
  generate : NewsItem → PostStyle → Except Str Str
  pubResp : PubResp
  nowEpoch : Int

/-- Observable effects of one `run_once` call: its result (the post id,
or the `AutopostServiceError` message), the settings in storage when it
finishes, whether `publish_post` was invoked, and how many settings
writes were performed. -/
structure RunEffects where
  result : Except Str Str
  settings : AutopostSettings
  publishCalled : Bool
  saveCount : Nat
deriving Repr

/-- A `run_once` failure before any publish or save. -/
def runFail (settings : AutopostSettings) (msg : Str) : RunEffects :=
  ⟨.error msg, settings, false, 0⟩

/-- `AutopostService.run_once` (lines 94-142), abstracted over its
collaborators.  The guard serialises calls, so a single call sees a fixed
stored `settings` value, modelled as the `settings` argument. -/
def runOnce (env : RunEnv) (settings : AutopostSettings) : RunEffects :=
  match settings.chat_id with
  | none => runFail settings "Autopost chat_id is not configured".data
  | some _ =>
  match settings.owner_user_id with
  | none => runFail settings "Autopost owner user is not configured".data
  | some _ =>
  match parseStyle settings.style with
  | none => runFail settings ("Invalid autopost style: ".data ++ settings.style)
  | some style =>
  match selectNewsToPost env.news settings.last_posted_news_link with
  | none => runFail settings "No fresh news found for autopost".data
  | some selected =>
  match env.creds with
  | none =>
      runFail settings
        "LinkedIn account is not connected for autopost owner. Use /linkedin_connect.".data
  | some credentials =>
  match env.generate selected style with
  | .error e => runFail settings e
  | .ok text =>
  match publishPost env.pubResp text credentials.access_token credentials.person_id with
  | .error e => ⟨.error e, settings, true, 0⟩
  | .ok postId =>
      let updated := { settings with
        last_posted_news_link := some selected.link
        last_run_epoch := some env.nowEpoch }
      ⟨.ok postId, updated, true, 1⟩

/-- The credentials built from a stored OAuth account by
`get_credentials_for_user`. -/
def oauthCredentials (account : StoredLinkedInAccount) : LinkedInCredentials :=
  ⟨account.access_token, account.person_id, "oauth".data,
    some account.expires_at_epoch, account.name, account.email⟩

/-- Invariant of claim C9: `enabled == true` implies `chat_id` and
`owner_user_id` are non-null. -/
def settingsInv (s : AutopostSettings) : Prop :=
  s.enabled = true → s.chat_id ≠ none ∧ s.owner_user_id ≠ none

/-! ## Theorems for the claims -/

/-- C10: `disable` changes only the `enabled` field of the stored
settings to `false`; `chat_id`, `owner_user_id`, `interval_minutes`,
`style`, `last_posted_news_link` and `last_run_epoch` in the persisted
settings are all unchanged, and the persisted settings equal the returned
ones, so a later re-enable or status sees the previous configuration. -/
theorem c10_disable_changes_only_enabled (state : SchedState) :
    (disable state).2.enabled = false ∧
    (disable state).2.chat_id = state.settings.chat_id ∧
    (disable state).2.owner_user_id = state.settings.owner_user_id ∧
    (disable state).2.interval_minutes = state.settings.interval_minutes ∧
    (disable state).2.style = state.settings.style ∧
    (disable state).2.last_posted_news_link = state.settings.last_posted_news_link ∧
    (disable state).2.last_run_epoch = state.settings.last_run_epoch ∧
    (disable state).1.settings = (disable state).2 :=
  ⟨rfl, rfl, rfl, rfl, rfl, rfl, rfl, rfl⟩

/-- C5: `_select_news_to_post` returns the first item in ranked order
whose link differs from the cursor; in particular, when the cursor equals
the first item's link and the second item's link differs, the second item
is selected, not the first. -/
theorem c5_select_skips_cursor (items : List NewsItem) (lastLink : Option Str)
    (a b : NewsItem) (rest : List NewsItem) (hab : b.link ≠ a.link) :
    selectNewsToPost items lastLink
      = items.find? (fun it => decide (some it.link ≠ lastLink)) ∧
    selectNewsToPost (a :: b :: rest) (some a.link) = some b := by
  constructor
  · induction items with
    | nil => rfl
    | cons x xs ih =>
        simp only [selectNewsToPost, List.find?]
        by_cases hx : some x.link ≠ lastLink
        · simp [hx]
        · simp only [ne_eq, not_not] at hx
          simp [hx, ih]
  · simp [selectNewsToPost, hab]

/-- Witness for C5 on a concrete two-item list whose first link equals
the cursor. -/
theorem c5_witness :
    selectNewsToPost
        [⟨"t1".data, [], "http://a".data, none⟩, ⟨"t2".data, [], "http://b".data, none⟩]
        (some "http://a".data)
      = [⟨"t1".data, [], "http://a".data, none⟩,
          ⟨"t2".data, [], "http://b".data, none⟩].find?
          (fun it => decide (some it.link ≠ some "http://a".data)) ∧
    selectNewsToPost
        [⟨"t1".data, [], "http://a".data, none⟩, ⟨"t2".data, [], "http://b".data, none⟩]
        (some "http://a".data)
      = some ⟨"t2".data, [], "http://b".data, none⟩ :=
  ⟨(c5_select_skips_cursor _ _ ⟨"t1".data, [], "http://a".data, none⟩
      ⟨"t2".data, [], "http://b".data, none⟩ [] (by decide)).1,
   (c5_select_skips_cursor [] none ⟨"t1".data, [], "http://a".data, none⟩
      ⟨"t2".data, [], "http://b".data, none⟩ [] (by decide)).2⟩

/-- C4: `enable` with an interval outside [30, 1440] fails with the
validation error, leaving the stored settings and the timer untouched;
with an interval inside [30, 1440] it persists the settings with
`enabled := true` and installs the single timer at that interval,
replacing any existing one. -/
theorem c4_enable_interval_validation (chatId ownerUserId intervalMinutes : Int)
    (style : PostStyle) (state : SchedState) :
    (intervalMinutes < 30 ∨ intervalMinutes > 1440 →
      enable chatId ownerUserId intervalMinutes style state
        = (state, .error "Interval must be between 30 and 1440 minutes".data)) ∧
    (30 ≤ intervalMinutes → intervalMinutes ≤ 1440 →
      (enable chatId ownerUserId intervalMinutes style state).1.timer
          = some intervalMinutes ∧
      (enable chatId ownerUserId intervalMinutes style state).1.settings
          = { state.settings with
                enabled := true
                chat_id := some chatId
                owner_user_id := some ownerUserId
                interval_minutes := intervalMinutes
                style := styleValue style } ∧
      (enable chatId ownerUserId intervalMinutes style state).2
          = .ok (enable chatId ownerUserId intervalMinutes style state).1.settings) := by
  constructor
  · intro h
    simp [enable, h]
  · intro h1 h2
    have hne : ¬ (intervalMinutes < 30 ∨ intervalMinutes > 1440) := by omega
    simp [enable, hne, scheduleJob]

/-- Witness for C4: interval 20 is rejected without touching a live
timer, and interval 60 persists enabled settings with the timer
installed. -/
theorem c4_witness :
    (enable 5 7 20 PostStyle.short ⟨defaultSettings, some 120⟩
        = (⟨defaultSettings, some 120⟩,
            .error "Interval must be between 30 and 1440 minutes".data)) ∧
    ((enable 5 7 60 PostStyle.short ⟨defaultSettings, some 120⟩).1.timer = some 60 ∧
      (enable 5 7 60 PostStyle.short ⟨defaultSettings, some 120⟩).1.settings
        = { defaultSettings with
              enabled := true
              chat_id := some 5
              owner_user_id := some 7
              interval_minutes := 60
              style := styleValue PostStyle.short } ∧
      (enable 5 7 60 PostStyle.short ⟨defaultSettings, some 120⟩).2
        = .ok (enable 5 7 60 PostStyle.short ⟨defaultSettings, some 120⟩).1.settings) :=
  ⟨(c4_enable_interval_validation 5 7 20 PostStyle.short ⟨defaultSettings, some 120⟩).1
      (by decide),
   (c4_enable_interval_validation 5 7 60 PostStyle.short ⟨defaultSettings, some 120⟩).2
      (by decide) (by decide)⟩

/-- C9: the invariant `enabled = true → chat_id ≠ none ∧
owner_user_id ≠ none` holds for the default settings and is preserved by
the settings each of `enable`, `disable` and `run_once` leaves in
storage (as well as by the settings value `enable` returns). -/
theorem c9_enabled_invariant :
    settingsInv defaultSettings ∧
    (∀ c o i st s, settingsInv s.settings →
      settingsInv ((enable c o i st s).1.settings)) ∧
    (∀ c o i st s r, (enable c o i st s).2 = .ok r → settingsInv r) ∧
    (∀ s, settingsInv ((disable s).1.settings)) ∧
    (∀ env st, settingsInv st → settingsInv ((runOnce env st).settings)) := by
  refine ⟨?_, ?_, ?_, ?_, ?_⟩
  · intro h
    simp [defaultSettings] at h
  · intro c o i st s hs
    by_cases h : i < 30 ∨ i > 1440
    · simpa [enable, h] using hs
    · simp [enable, h, scheduleJob, settingsInv]
  · intro c o i st s r hr
    by_cases h : i < 30 ∨ i > 1440
    · simp [enable, h] at hr
    · simp only [enable, h, if_false, scheduleJob] at hr
      cases hr
      simp [settingsInv]
  · intro s h
    simp [disable] at h
  · intro env st hst
    unfold runOnce
    split
    · exact hst
    · split
      · exact hst
      · split
        · exact hst
        · split
          · exact hst
          · split
            · exact hst
            · split
              · exact hst
              · split
                · exact hst
                · intro h
                  rcases hst h with ⟨h1, h2⟩
                  exact ⟨h1, h2⟩

/-- Witness for C9: the invariant transfer applied to concrete enabled
settings surviving a concrete failing run. -/
theorem c9_witness :
    settingsInv
      ((runOnce ⟨[], none, fun _ _ => .error [], PubResp.netError, 0⟩
          { defaultSettings with
              enabled := true, chat_id := some 5, owner_user_id := some 7 }).settings) :=
  (c9_enabled_invariant.2.2.2.2
    ⟨[], none, fun _ _ => .error [], PubResp.netError, 0⟩
    { defaultSettings with enabled := true, chat_id := some 5, owner_user_id := some 7 })
    (by intro _; exact ⟨by simp, by simp⟩)

/-- When every item's link equals the cursor, no item is selected. -/
theorem selectNewsToPost_none_of_all_seen :
    ∀ (items : List NewsItem) (lastLink : Option Str),
      (∀ it ∈ items, some it.link = lastLink) →
      selectNewsToPost items lastLink = none
  | [], _, _ => rfl
  | item :: rest, lastLink, h => by
      have hitem := h item (List.mem_cons_self ..)
      simp only [selectNewsToPost, hitem]
      rw [if_neg fun hne => hne rfl]
      exact selectNewsToPost_none_of_all_seen rest lastLink
        fun it hit => h it (List.mem_cons_of_mem _ hit)

/-- C6: whenever `run_once` fails, the stored settings — in particular
`last_posted_news_link` — are unchanged and no settings write happens; in
the "all links already posted" case (including the empty list) it fails
with the "no fresh news" error and never invokes the publisher; and a 401
publish response yields the invalid/expired-token error. -/
theorem c6_failure_preserves_settings :
    (∀ env st msg, (runOnce env st).result = .error msg →
      (runOnce env st).settings = st ∧ (runOnce env st).saveCount = 0) ∧
    (∀ env st, st.chat_id ≠ none → st.owner_user_id ≠ none →
      (parseStyle st.style).isSome = true →
      (∀ it ∈ env.news, some it.link = st.last_posted_news_link) →
      (runOnce env st).result = .error "No fresh news found for autopost".data ∧
      (runOnce env st).publishCalled = false) ∧
    (∀ text token person rid bid btxt, pyStrip token ≠ [] → pyStrip person ≠ [] →
      publishPost (.resp 401 rid bid btxt) text token person
        = .error msgInvalidToken) := by
  refine ⟨?_, ?_, ?_⟩
  · intro env st msg
    unfold runOnce runFail
    split
    · exact fun _ => ⟨rfl, rfl⟩
    · split
      · exact fun _ => ⟨rfl, rfl⟩
      · split
        · exact fun _ => ⟨rfl, rfl⟩
        · split
          · exact fun _ => ⟨rfl, rfl⟩
          · split
            · exact fun _ => ⟨rfl, rfl⟩
            · split
              · exact fun _ => ⟨rfl, rfl⟩
              · split
                · exact fun _ => ⟨rfl, rfl⟩
                · intro h
                  simp at h
  · intro env st h1 h2 h3 hall
    obtain ⟨c, hc⟩ := Option.ne_none_iff_exists'.mp h1
    obtain ⟨o, ho⟩ := Option.ne_none_iff_exists'.mp h2
    obtain ⟨sty, hsty⟩ := Option.isSome_iff_exists.mp h3
    have hsel := selectNewsToPost_none_of_all_seen env.news st.last_posted_news_link hall
    simp [runOnce, hc, ho, hsty, hsel, runFail]
  · intro text token person rid bid btxt htok hper
    simp [publishPost, htok, hper]

/-- Witness for C6: a run failing on unconfigured chat keeps the
settings; a run whose single news item equals the cursor fails with "no
fresh news" without publishing; a concrete 401 response maps to the
invalid-token error. -/
theorem c6_witness :
    ((runOnce ⟨[], none, fun _ _ => .error [], PubResp.netError, 0⟩
        defaultSettings).settings = defaultSettings ∧
      (runOnce ⟨[], none, fun _ _ => .error [], PubResp.netError, 0⟩
        defaultSettings).saveCount = 0) ∧
    ((runOnce
        ⟨[⟨"title".data, [], "http://a".data, none⟩], none,
          fun _ _ => .error [], PubResp.netError, 0⟩
        { defaultSettings with
            chat_id := some 5, owner_user_id := some 7,
            last_posted_news_link := some "http://a".data }).result
        = .error "No fresh news found for autopost".data ∧
      (runOnce
        ⟨[⟨"title".data, [], "http://a".data, none⟩], none,
          fun _ _ => .error [], PubResp.netError, 0⟩
        { defaultSettings with
            chat_id := some 5, owner_user_id := some 7,
            last_posted_news_link := some "http://a".data }).publishCalled = false) ∧
    publishPost (.resp 401 [] [] []) "post".data "sometoken".data "someperson".data
      = .error msgInvalidToken := by
  refine ⟨?_, ?_, ?_⟩
  · exact c6_failure_preserves_settings.1
      ⟨[], none, fun _ _ => .error [], PubResp.netError, 0⟩ defaultSettings
      "Autopost chat_id is not configured".data rfl
  · exact c6_failure_preserves_settings.2.1
      ⟨[⟨"title".data, [], "http://a".data, none⟩], none,
        fun _ _ => .error [], PubResp.netError, 0⟩
      { defaultSettings with
          chat_id := some 5, owner_user_id := some 7,
          last_posted_news_link := some "http://a".data }
      (by decide) (by decide) (by decide) (by decide)
  · exact c6_failure_preserves_settings.2.2
      "post".data "sometoken".data "someperson".data [] [] []
      (by decide) (by decide)

/-- C7: `get_credentials_for_user` returns the stored OAuth account
(tagged `source = "oauth"`) exactly when its `expires_at_epoch` is more
than 60 seconds past the current epoch; otherwise it returns the
sanitized static fallback (tagged `source = "env"`) when both fallback
values are non-placeholder, and otherwise nothing. -/
theorem c7_credential_resolution (stored : Option StoredLinkedInAccount)
    (fallbackToken fallbackPerson : Str) (nowEpoch : Int) :
    ((∃ cr, getCredentialsForUser stored fallbackToken fallbackPerson nowEpoch
          = some cr ∧ cr.source = "oauth".data) ↔
      (∃ acc, stored = some acc ∧ nowEpoch + 60 < acc.expires_at_epoch)) ∧
    (∀ acc, stored = some acc → nowEpoch + 60 < acc.expires_at_epoch →
      getCredentialsForUser stored fallbackToken fallbackPerson nowEpoch
        = some (oauthCredentials acc)) ∧
    ((∀ acc, stored = some acc → acc.expires_at_epoch ≤ nowEpoch + 60) →
      getCredentialsForUser stored fallbackToken fallbackPerson nowEpoch
        = if sanitizeEnvValue fallbackToken ≠ [] ∧ sanitizeEnvValue fallbackPerson ≠ []
          then some ⟨sanitizeEnvValue fallbackToken, sanitizeEnvValue fallbackPerson,
            "env".data, none, none, none⟩
          else none) := by
  have henv : ("env".data : Str) ≠ "oauth".data := by decide
  refine ⟨⟨?_, ?_⟩, ?_, ?_⟩
  · rintro ⟨cr, hcr, hsrc⟩
    cases stored with
    | none =>
        simp only [getCredentialsForUser] at hcr
        split at hcr
        · cases hcr
          exact absurd hsrc henv
        · cases hcr
    | some acc =>
        simp only [getCredentialsForUser] at hcr
        by_cases hv : isTokenValid acc nowEpoch
        · refine ⟨acc, rfl, ?_⟩
          simpa [isTokenValid] using hv
        · rw [if_neg hv] at hcr
          split at hcr
          · cases hcr
            exact absurd hsrc henv
          · cases hcr
  · rintro ⟨acc, hacc, hexp⟩
    subst hacc
    have hv : isTokenValid acc nowEpoch = true := by simpa [isTokenValid] using hexp
    exact ⟨oauthCredentials acc,
      by simp [getCredentialsForUser, hv, oauthCredentials], rfl⟩
  · intro acc hacc hexp
    subst hacc
    have hv : isTokenValid acc nowEpoch = true := by simpa [isTokenValid] using hexp
    simp [getCredentialsForUser, hv, oauthCredentials]
  · intro hall
    cases stored with
    | none => rfl
    | some acc =>
        have hexp := hall acc rfl
        have hv : isTokenValid acc nowEpoch = false := by
          simpa [isTokenValid] using not_lt.mpr hexp
        simp [getCredentialsForUser, hv]

/-- Witness for C7: with the clock at epoch 1000 and placeholder
fallbacks, an account expiring at 1300 (in 300 seconds) is returned
tagged oauth, while one expiring at 1030 (in 30 seconds) is rejected and
resolution yields nothing. -/
theorem c7_witness :
    getCredentialsForUser
        (some ⟨"oauthtoken123".data, 1300, "personid".data, none, none, none⟩)
        "your_linkedin_token".data "your_person_id".data 1000
      = some (oauthCredentials
          ⟨"oauthtoken123".data, 1300, "personid".data, none, none, none⟩) ∧
    getCredentialsForUser
        (some ⟨"oauthtoken123".data, 1030, "personid".data, none, none, none⟩)
        "your_linkedin_token".data "your_person_id".data 1000
      = none := by
  constructor
  · exact (c7_credential_resolution _ _ _ _).2.1 _ rfl (by decide)
  · have h := (c7_credential_resolution
        (some ⟨"oauthtoken123".data, 1030, "personid".data, none, none, none⟩)
        "your_linkedin_token".data "your_person_id".data 1000).2.2
        (by intro acc ha; cases ha; decide)
    rw [h]
    decide

/-- Unrolling of the retry loop when every remaining attempt raises a
caught exception (attempt with call index `i` raising `e i` after
requesting the first candidate `m`): the loop runs all `n` remaining
attempts, records a backoff sleep of `backoff * attempt` after every
attempt but the last, and ends carrying the final attempt's exception as
`last_error`. -/
theorem genLoop_all_fail (transport : Nat → Str → TranspResult)
    (style : PostStyle) (m : Str) (rest : List Str) (backoff : ℚ)
    (e : Nat → GenExc) :
    ∀ (n a c : Nat) (last : Option GenExc) (req : List Str) (del : List ℚ),
      (∀ i, i < n → attemptModels transport style (c + i) (m :: rest)
          = (.error (some (.caught (e (c + i)))), [m])) →
      genLoop transport style (m :: rest) backoff n a c last req del =
        ⟨.error (match n with
            | 0 => .wrapped last
            | k + 1 => .wrapped (some (e (c + k)))),
          req ++ List.replicate n m,
          del ++ (List.range (n - 1)).map (fun i => backoff * ((a + i : ℕ) : ℚ))⟩ := by
  intro n
  induction n with
  | zero => intro a c last req del _; simp [genLoop]
  | succ k ih =>
      intro a c last req del hfail
      have h0 := hfail 0 (Nat.succ_pos k)
      rw [Nat.add_zero] at h0
      rw [show genLoop transport style (m :: rest) backoff (k + 1) a c last req del =
          genLoop transport style (m :: rest) backoff k (a + 1) (c + 1) (some (e c))
            (req ++ [m]) (if k = 0 then del else del ++ [backoff * (a : ℚ)]) by
        simp [genLoop, h0]]
      rw [ih (a + 1) (c + 1) (some (e c)) (req ++ [m]) _
        (fun i hi => by
          have := hfail (i + 1) (by omega)
          rwa [show c + (i + 1) = c + 1 + i by omega] at this)]
      simp only [GenRun.mk.injEq]
      refine ⟨?_, ?_, ?_⟩
      · cases k with
        | zero => rfl
        | succ j =>
            show Except.error (GenFailure.wrapped (some (e (c + 1 + j))))
              = Except.error (GenFailure.wrapped (some (e (c + (j + 1)))))
            rw [show c + 1 + j = c + (j + 1) by omega]
      · simp [List.replicate_succ]
      · cases k with
        | zero => simp
        | succ j =>
            simp only [Nat.succ_sub_one, if_neg (Nat.succ_ne_zero j)]
            rw [List.range_succ_eq_map, List.map_cons, List.map_map,
              List.append_assoc, List.singleton_append]
            refine congrArg (fun l => del ++ l) (congrArg₂ List.cons (by norm_num) ?_)
            refine List.map_congr_left fun i _ => ?_
            have h3 : a + 1 + i = a + Nat.succ i := by omega
            simp [Function.comp, h3]

/-- C3 (amended): when every attempt of `generate_post` fails with an
exception the `except` clause catches — a transport error (including any
non-2xx status raised by `raise_for_status`), a missing content field
(`KeyError`), an undecodable body or blank/non-string content
(`ValueError`), or a validation failure — the whole attempt is retried
up to `max_retries` times, a delay of `retry_backoff_seconds * attempt`
is slept between consecutive attempts, and the final failure is a
generation error wrapping the last attempt's underlying cause. -/
theorem c3_retry_backoff_and_wrap (transport : Nat → Str → TranspResult)
    (style : PostStyle) (m : Str) (rest : List Str) (maxRetries : Nat)
    (backoff : ℚ) (e : Nat → GenExc)
    (hfail : ∀ i, i < maxRetries → attemptModels transport style i (m :: rest)
        = (.error (some (.caught (e i))), [m]))
    (hpos : 1 ≤ maxRetries) :
    (generatePost transport style (m :: rest) maxRetries backoff).result
        = .error (.wrapped (some (e (maxRetries - 1)))) ∧
    (generatePost transport style (m :: rest) maxRetries backoff).requested
        = List.replicate maxRetries m ∧
    (generatePost transport style (m :: rest) maxRetries backoff).delays
        = (List.range (maxRetries - 1)).map (fun i => backoff * ((i + 1 : ℕ) : ℚ)) := by
  obtain ⟨n, rfl⟩ : ∃ n, maxRetries = n + 1 := ⟨maxRetries - 1, by omega⟩
  unfold generatePost
  rw [genLoop_all_fail transport style m rest backoff e (n + 1) 1 0 none [] []
    (fun i hi => by simpa using hfail i hi)]
  refine ⟨by simp, by simp, ?_⟩
  simp only [List.nil_append, Nat.succ_sub_one]
  exact List.map_congr_left fun i _ => by rw [Nat.add_comm]

/-- C3 counterexample: a 200 response whose JSON body is shaped like
`\x7b"choices": []\x7d` makes `data["choices"][0]` raise `IndexError`,
which the `except` tuple of `generate_post` does not catch — despite
`max_retries = 3` the call aborts on the first attempt with one request,
no backoff sleep and no wrapping generation error, refuting the claimed
universal retry over malformed responses. -/
theorem c3_counterexample :
    (generatePost (fun _ _ => .resp 200 .indexError) PostStyle.short
        ["modelx".data] 3 2).result = .error (.crash .indexError) ∧
    (generatePost (fun _ _ => .resp 200 .indexError) PostStyle.short
        ["modelx".data] 3 2).requested = ["modelx".data] ∧
    (generatePost (fun _ _ => .resp 200 .indexError) PostStyle.short
        ["modelx".data] 3 2).delays = [] :=
  ⟨rfl, rfl, rfl⟩

/-- Witness for C3: a transport failing at the network level on the
first call and with a missing content field afterwards, one candidate,
three attempts, backoff 2 — the run issues three requests, sleeps 2 then
4 seconds, and fails wrapping the last attempt's `KeyError` (not the
first attempt's HTTP error). -/
theorem c3_witness :
    (generatePost (fun i _ => if i = 0 then .netError else .resp 200 .keyError)
        PostStyle.short ["modelx".data] 3 2).result
      = .error (.wrapped (some .keyError)) ∧
    (generatePost (fun i _ => if i = 0 then .netError else .resp 200 .keyError)
        PostStyle.short ["modelx".data] 3 2).requested
      = List.replicate 3 "modelx".data ∧
    (generatePost (fun i _ => if i = 0 then .netError else .resp 200 .keyError)
        PostStyle.short ["modelx".data] 3 2).delays
      = (List.range 2).map (fun i => (2 : ℚ) * ((i + 1 : ℕ) : ℚ)) :=
  c3_retry_backoff_and_wrap
    (fun i _ => if i = 0 then .netError else .resp 200 .keyError)
    PostStyle.short "modelx".data [] 3 2
    (fun i => if i = 0 then .httpError else .keyError)
    (by intro i hi; interval_cases i <;> rfl) (by decide)

/-- Transport for the C2 scenario: the provider-qualified candidate
`qwen/qwen3-coder` is unavailable (404) while the bare candidate
`qwen3-coder` answers with valid content that passes normalization, on
every call. -/
def c2Transport : Nat → Str → TranspResult := fun _ m =>
  if m = "qwen/qwen3-coder".data then .resp 404 .keyError
  else .resp 200 (.content (List.replicate 600 'a'))

set_option maxRecDepth 8000 in
/-- C2 (refuting the claimed fallback): with the NVIDIA endpoint URL and
model `qwen3-coder`, the candidate list is the provider-qualified variant
followed by the bare name; yet when the first candidate yields a 404, the
raised `ValueError` propagates to the `except` around the candidate loop,
so the attempt fails immediately and the bare name is never requested —
in the whole run, not merely within one attempt — even though an attempt
using the bare name alone would succeed. -/
theorem c2_model_fallback_dead :
    buildModelCandidates
        "https://integrate.api.nvidia.com/v1/chat/completions".data "qwen3-coder".data
      = ["qwen/qwen3-coder".data, "qwen3-coder".data] ∧
    (∀ callIdx, attemptModels c2Transport PostStyle.analytical callIdx
        ["qwen/qwen3-coder".data, "qwen3-coder".data]
      = (.error (some (.caught (.valueError msg404))), ["qwen/qwen3-coder".data])) ∧
    (attemptModels c2Transport PostStyle.analytical 0 ["qwen3-coder".data]).1.isOk
      = true ∧
    (generatePost c2Transport PostStyle.analytical
        ["qwen/qwen3-coder".data, "qwen3-coder".data] 3 1).result
      = .error (.wrapped (some (.valueError msg404))) ∧
    (generatePost c2Transport PostStyle.analytical
        ["qwen/qwen3-coder".data, "qwen3-coder".data] 3 1).requested
      = ["qwen/qwen3-coder".data, "qwen/qwen3-coder".data, "qwen/qwen3-coder".data] :=
  ⟨rfl, fun _ => rfl, rfl, rfl, rfl⟩

/-- Every item accepted by the entry loop passes the keyword filter. -/
theorem buildItems_matches :
    ∀ (entries : List RawEntry) (keywords : List Str) (items : List NewsItem),
      buildItems keywords entries = .ok items →
      ∀ it ∈ items, matchesKeywords keywords it.title it.summary = true
  | [], _, items, h => by
      cases h
      intro it hit
      cases hit
  | e :: rest, keywords, items, h => by
      rw [buildItems] at h
      split at h
      · exact buildItems_matches rest keywords items h
      · split at h
        · exact buildItems_matches rest keywords items h
        · split at h
          · cases h
          · rename_i hblank hmatch hlen
            cases hrest : buildItems keywords rest with
            | error u => rw [hrest] at h; cases h
            | ok tailItems =>
                rw [hrest] at h
                cases h
                intro it hit
                rcases List.mem_cons.mp hit with hfirst | htail
                · subst hfirst
                  simpa using (not_not.mp hmatch)
                · exact buildItems_matches rest keywords tailItems hrest it htail

/-- Characterisation of the dedup loop: any element of the result either
was already in the accumulator, or is the first occurrence of its link in
the remaining input and its link is fresh with respect to the
accumulator. -/
theorem dedupGo_spec :
    ∀ (l acc : List NewsItem) (x : NewsItem), x ∈ dedupGo acc l →
      x ∈ acc ∨ (l.find? (fun y => y.link == x.link) = some x ∧
        ∀ a ∈ acc, a.link ≠ x.link)
  | [], _, _, hx => .inl hx
  | item :: rest, acc, x, hx => by
      by_cases hdup : acc.any (fun y => y.link == item.link)
      · rw [dedupGo, if_pos hdup] at hx
        rcases dedupGo_spec rest acc x hx with h | ⟨hfind, hacc⟩
        · exact .inl h
        · refine .inr ⟨?_, hacc⟩
          have hne : ¬ (item.link == x.link) = true := by
            rcases List.any_eq_true.mp hdup with ⟨a, ha, haeq⟩
            have haitem : a.link = item.link := by simpa using haeq
            have hax : a.link ≠ x.link := hacc a ha
            simp only [beq_iff_eq]
            intro hcontr
            exact hax (haitem.trans hcontr)
          have hstep : List.find? (fun y => y.link == x.link) (item :: rest)
              = List.find? (fun y => y.link == x.link) rest :=
            List.find?_cons_of_neg rest hne
          exact hstep.trans hfind
      · rw [dedupGo, if_neg hdup] at hx
        have hfresh : ∀ a ∈ acc, a.link ≠ item.link := by
          intro a ha hcontr
          exact hdup (List.any_eq_true.mpr ⟨a, ha, by simpa using hcontr⟩)
        rcases dedupGo_spec rest (acc ++ [item]) x hx with h | ⟨hfind, hacc⟩
        · rcases List.mem_append.mp h with h | h
          · exact .inl h
          · have hx_item : x = item := by simpa using h
            subst hx_item
            refine .inr ⟨List.find?_cons_of_pos _ (by simp), hfresh⟩
        · refine .inr ⟨?_, fun a ha => hacc a (List.mem_append_left _ ha)⟩
          have hitem_ne : item.link ≠ x.link :=
            hacc item (List.mem_append_right _ (by simp))
          have hstep : List.find? (fun y => y.link == x.link) (item :: rest)
              = List.find? (fun y => y.link == x.link) rest :=
            List.find?_cons_of_neg rest (by simpa using hitem_ne)
          exact hstep.trans hfind

/-- The dedup loop keeps the produced links pairwise distinct. -/
theorem dedupGo_nodup :
    ∀ (l acc : List NewsItem), (acc.map NewsItem.link).Nodup →
      ((dedupGo acc l).map NewsItem.link).Nodup
  | [], _, h => h
  | item :: rest, acc, h => by
      by_cases hdup : acc.any (fun y => y.link == item.link)
      · rw [dedupGo, if_pos hdup]
        exact dedupGo_nodup rest acc h
      · rw [dedupGo, if_neg hdup]
        refine dedupGo_nodup rest (acc ++ [item]) ?_
        rw [List.map_append]
        rw [List.nodup_append]
        refine ⟨h, List.nodup_singleton _, ?_⟩
        intro b hb
        rcases List.mem_map.mp hb with ⟨a, ha, rfl⟩
        simp only [List.map_cons, List.map_nil, List.mem_singleton]
        intro hcontr
        exact hdup (List.any_eq_true.mpr ⟨a, ha, by simpa using hcontr⟩)

instance : IsTotal NewsItem newsLe :=
  ⟨fun a b => le_total (sortKey b) (sortKey a)⟩

instance : IsTrans NewsItem newsLe :=
  ⟨fun _ _ _ hab hbc => le_trans hbc hab⟩

/-- C8: whenever `fetch_latest_news` returns (from parsed entries
`entries`, with `rawItems` the accepted filtered items of the entry
loop), the result has at most `limit` items, pairwise-distinct links,
is sorted most-recent-first (missing timestamps sorting as oldest), and
every returned item passes the keyword filter and is the first occurrence
of its link among the accepted items. -/
theorem c8_fetch_pipeline (keywords : List Str) (limit : Nat)
    (entries : List RawEntry) (rawItems res : List NewsItem)
    (hraw : buildItems keywords entries = .ok rawItems)
    (hres : fetchLatestNews keywords limit entries = .ok res) :
    res.length ≤ limit ∧
    (res.map NewsItem.link).Nodup ∧
    res.Pairwise newsLe ∧
    ∀ it ∈ res, matchesKeywords keywords it.title it.summary = true ∧
      rawItems.find? (fun y => y.link == it.link) = some it := by
  have hres' : res = (List.insertionSort newsLe (dedupByLink rawItems)).take limit := by
    rw [fetchLatestNews, hraw] at hres
    cases hres
    rfl
  subst hres'
  have hperm := List.perm_insertionSort newsLe (dedupByLink rawItems)
  refine ⟨?_, ?_, ?_, ?_⟩
  · rw [List.length_take]
    exact Nat.min_le_left _ _
  · have hd : ((dedupByLink rawItems).map NewsItem.link).Nodup :=
      dedupGo_nodup rawItems [] (by simp)
    have hs : ((List.insertionSort newsLe (dedupByLink rawItems)).map
        NewsItem.link).Nodup := ((hperm.map NewsItem.link).nodup_iff).mpr hd
    rw [List.map_take]
    exact List.Nodup.sublist (List.take_sublist _ _) hs
  · exact List.Pairwise.sublist (List.take_sublist _ _)
      (List.sorted_insertionSort newsLe (dedupByLink rawItems))
  · intro it hit
    have hsorted : it ∈ List.insertionSort newsLe (dedupByLink rawItems) :=
      (List.take_sublist _ _).subset hit
    have hdedup : it ∈ dedupByLink rawItems := hperm.subset hsorted
    rcases dedupGo_spec rawItems [] it hdedup with h | ⟨hfind, _⟩
    · cases h
    · exact ⟨buildItems_matches entries keywords rawItems hraw it
        (List.mem_of_find?_eq_some hfind), hfind⟩

/-- Witness for C8 on four concrete entries (one without the keyword, two
sharing a link, one with the latest timestamp): the pipeline keeps the
keyword matches, drops the duplicate link, ranks the freshest first and
respects the limit of 2. -/
theorem c8_witness :
    ([⟨"ai news".data, [], "http://c".data, some 10⟩,
      ⟨"AI rocks".data, "x".data, "http://a".data, none⟩] : List NewsItem).length ≤ 2 ∧
    (([⟨"ai news".data, [], "http://c".data, some 10⟩,
        ⟨"AI rocks".data, "x".data, "http://a".data, none⟩] : List NewsItem).map
        NewsItem.link).Nodup ∧
    ([⟨"ai news".data, [], "http://c".data, some 10⟩,
      ⟨"AI rocks".data, "x".data, "http://a".data, none⟩] : List NewsItem).Pairwise
      newsLe ∧
    ∀ it ∈ ([⟨"ai news".data, [], "http://c".data, some 10⟩,
        ⟨"AI rocks".data, "x".data, "http://a".data, none⟩] : List NewsItem),
      matchesKeywords ["ai".data] it.title it.summary = true ∧
      ([⟨"AI rocks".data, "x".data, "http://a".data, none⟩,
        ⟨"AI again".data, "dup".data, "http://a".data, some 5⟩,
        ⟨"ai news".data, [], "http://c".data, some 10⟩] : List NewsItem).find?
          (fun y => y.link == it.link) = some it :=
  c8_fetch_pipeline ["ai".data] 2
    [⟨"AI rocks".data, "http://a".data, "x".data, none⟩,
      ⟨"Boring".data, "http://b".data, "nothing here".data, none⟩,
      ⟨"AI again".data, "http://a".data, "dup".data, some 5⟩,
      ⟨"ai news".data, "http://c".data, [], some 10⟩]
    [⟨"AI rocks".data, "x".data, "http://a".data, none⟩,
      ⟨"AI again".data, "dup".data, "http://a".data, some 5⟩,
      ⟨"ai news".data, [], "http://c".data, some 10⟩]
    [⟨"ai news".data, [], "http://c".data, some 10⟩,
      ⟨"AI rocks".data, "x".data, "http://a".data, none⟩]
    (by rfl) (by rfl)

/-- Dropping a trailing run cannot lengthen a string. -/
theorem pyRstrip_length_le (s : Str) : (pyRstrip s).length ≤ s.length :=
  (List.rdropWhile_prefix ..).length_le

/-- Dropping a leading run cannot lengthen a string. -/
theorem pyLstrip_length_le (s : Str) : (pyLstrip s).length ≤ s.length :=
  (List.dropWhile_sublist _).length_le

/-- Extending a string on the left cannot lose hashtag matches. -/
theorem hashtagCount_le_cons (x : Char) (l : Str) :
    hashtagCount l ≤ hashtagCount (x :: l) := by
  cases l with
  | nil => exact Nat.le_refl 0
  | cons b rest => exact Nat.le_add_left _ _

/-- Concatenation retains at least the hashtag matches of both parts. -/
theorem hashtagCount_append_le :
    ∀ (A B : Str), hashtagCount A + hashtagCount B ≤ hashtagCount (A ++ B)
  | [], B => by simp [hashtagCount]
  | [a], B => by simpa [hashtagCount] using hashtagCount_le_cons a B
  | a :: a' :: A'', B => by
      have ih := hashtagCount_append_le (a' :: A'') B
      simp only [List.cons_append] at ih ⊢
      simp only [hashtagCount]
      omega

/-- After the hashtag step the text holds at least 3 hashtag tokens. -/
theorem three_le_hashtagCount_ensureHashtags (t : Str) :
    3 ≤ hashtagCount (ensureHashtags t) := by
  unfold ensureHashtags
  split
  · rename_i h
    have happ := hashtagCount_append_le t
      ('\n' :: (" ".data).intercalate (defaultTags.take (3 - hashtagCount t)))
    have hcnt : hashtagCount
        ('\n' :: (" ".data).intercalate (defaultTags.take (3 - hashtagCount t)))
        = 3 - hashtagCount t := by
      have h3 : hashtagCount t = 0 ∨ hashtagCount t = 1 ∨ hashtagCount t = 2 := by
        omega
      rcases h3 with h0 | h0 | h0 <;> rw [h0] <;> decide
    omega
  · rename_i h
    omega

/-- The closing-question step cannot lose hashtag matches. -/
theorem hashtagCount_le_ensureQuestion (t : Str) :
    hashtagCount t ≤ hashtagCount (ensureQuestion t) := by
  unfold ensureQuestion
  split
  · exact Nat.le_refl _
  · have := hashtagCount_append_le t "\n\nЩо ви про це думаєте?".data
    omega

/-- The hashtag step appends at most 20 characters. -/
theorem ensureHashtags_length_le (t : Str) :
    (ensureHashtags t).length ≤ t.length + 20 := by
  unfold ensureHashtags
  split
  · rename_i h
    rw [List.length_append]
    have h3 : hashtagCount t = 0 ∨ hashtagCount t = 1 ∨ hashtagCount t = 2 := by omega
    have hlen : ('\n' :: (" ".data).intercalate
        (defaultTags.take (3 - hashtagCount t))).length ≤ 20 := by
      rcases h3 with h0 | h0 | h0 <;> rw [h0] <;> decide
    omega
  · omega

/-- The closing-question step appends at most 23 characters. -/
theorem ensureQuestion_length_le (t : Str) :
    (ensureQuestion t).length ≤ t.length + 23 := by
  unfold ensureQuestion
  split
  · omega
  · rw [List.length_append]
    have : ("\n\nЩо ви про це думаєте?".data).length = 23 := by decide
    omega

/-- The paragraph-break step adds at most the two newline characters. -/
theorem ensureParagraphBreak_length_le (t : Str) :
    (ensureParagraphBreak t).length ≤ t.length + 2 := by
  unfold ensureParagraphBreak
  split
  · omega
  · rw [List.length_append]
    simp only [List.length_cons]
    have h1 : (pyRstrip (t.take (t.length / 2))).length ≤ t.length / 2 :=
      le_trans (pyRstrip_length_le _) (by rw [List.length_take]; omega)
    have h2 : (pyLstrip (t.drop (t.length / 2))).length ≤ t.length - t.length / 2 :=
      le_trans (pyLstrip_length_le _) (by rw [List.length_drop])
    omega

/-- When the hashtag step appends, the result holds a newline. -/
theorem newline_mem_ensureHashtags (t : Str) (h : hashtagCount t < 3) :
    '\n' ∈ ensureHashtags t := by
  unfold ensureHashtags
  rw [if_pos h]
  exact List.mem_append_right _ (List.mem_cons_self ..)

/-- When the closing-question step appends, the result holds a newline. -/
theorem newline_mem_ensureQuestion (t : Str) (h : ¬ t.getLast? = some '?') :
    '\n' ∈ ensureQuestion t := by
  unfold ensureQuestion
  rw [if_neg h]
  exact List.mem_append_right _ (by decide)

/-- The closing-question step keeps any newline already present. -/
theorem newline_mem_ensureQuestion_mono (t : Str) (h : '\n' ∈ t) :
    '\n' ∈ ensureQuestion t := by
  unfold ensureQuestion
  split
  · exact h
  · exact List.mem_append_left _ h

/-- A text already holding a newline is left unchanged by the
paragraph-break step. -/
theorem ensureParagraphBreak_of_mem (t : Str) (h : '\n' ∈ t) :
    ensureParagraphBreak t = t := by
  unfold ensureParagraphBreak
  rw [if_pos]
  exact List.elem_iff.mpr h

/-- Dropping a leading run keeps the last character when that character
does not belong to the run. -/
theorem getLast?_dropWhile_isPySpace :
    ∀ (l : Str) (c : Char), l.getLast? = some c → isPySpace c = false →
      (l.dropWhile isPySpace).getLast? = some c
  | [], _, hl, _ => by simp at hl
  | [a], c, hl, hc => by
      have ha : a = c := by simpa using hl
      subst ha
      rw [List.dropWhile_cons]
      rw [hc]
      simp
  | a :: b :: rest, c, hl, hc => by
      rw [List.getLast?_cons_cons] at hl
      rw [List.dropWhile_cons]
      by_cases hpa : isPySpace a
      · rw [if_pos hpa]
        exact getLast?_dropWhile_isPySpace (b :: rest) c hl hc
      · rw [if_neg hpa, List.getLast?_cons_cons]
        exact hl

/-- After the closing-question step the text ends with a question
mark. -/
theorem ensureQuestion_getLast (t : Str) :
    (ensureQuestion t).getLast? = some '?' := by
  unfold ensureQuestion
  split
  · assumption
  · rw [List.getLast?_append]
    rfl

/-- The paragraph-break step keeps a trailing question mark. -/
theorem ensureParagraphBreak_getLast (t : Str) (h : t.getLast? = some '?') :
    (ensureParagraphBreak t).getLast? = some '?' := by
  unfold ensureParagraphBreak
  split
  · exact h
  · have hne : t ≠ [] := by
      intro h0
      rw [h0] at h
      simp at h
    have hlen : 0 < t.length := List.length_pos.mpr hne
    have hdrop_last : (t.drop (t.length / 2)).getLast? = some '?' := by
      conv at h => rw [← List.take_append_drop (t.length / 2) t]
      rw [List.getLast?_append] at h
      cases hd : (t.drop (t.length / 2)).getLast? with
      | none =>
          rw [List.getLast?_eq_none_iff] at hd
          have := congrArg List.length hd
          rw [List.length_drop] at this
          simp at this
          omega
      | some d =>
          rw [hd] at h
          simpa [Option.or] using h
    have hlast2 := getLast?_dropWhile_isPySpace (t.drop (t.length / 2)) '?'
      hdrop_last (by decide)
    rw [List.getLast?_append]
    have hcons : ('\n' :: '\n' :: pyLstrip (t.drop (t.length / 2))).getLast?
        = some '?' := by
      rw [show ('\n' :: '\n' :: pyLstrip (t.drop (t.length / 2)))
          = ['\n', '\n'] ++ pyLstrip (t.drop (t.length / 2)) from rfl]
      rw [List.getLast?_append]
      rw [show pyLstrip (t.drop (t.length / 2))
          = (t.drop (t.length / 2)).dropWhile isPySpace from rfl]
      rw [hlast2]
      rfl
    rw [hcons]
    rfl

/-- An accepted response satisfies the style minimum on its trimmed
length. -/
theorem checkAndTruncate_minLen (style : PostStyle) (cleaned core : Str)
    (h : checkAndTruncate style cleaned = .ok core) :
    minLen style ≤ cleaned.length := by
  cases style <;>
    · simp only [checkAndTruncate] at h
      split_ifs at h with h1 h2 <;>
        first
          | exact Except.noConfusion h
          | (simp only [minLen]; omega)

/-- The truncated core respects the style cap. -/
theorem checkAndTruncate_maxLen (style : PostStyle) (cleaned core : Str)
    (h : checkAndTruncate style cleaned = .ok core) :
    core.length ≤ maxLen style := by
  have htrunc : ∀ n, (pyRstrip (cleaned.take n)).length ≤ n := fun n =>
    le_trans (pyRstrip_length_le _) (by rw [List.length_take]; omega)
  cases style <;>
    · simp only [checkAndTruncate] at h
      split_ifs at h with h1 h2 <;>
        first
          | exact Except.noConfusion h
          | (cases h; simp only [maxLen]; first | exact htrunc _ | omega)

/-- C1 (amended): for every raw response accepted by normalization, the
trimmed response meets the style minimum (180 for `short`, 550
otherwise); the truncated core respects the style cap (900 / 1600) but
the returned text is only guaranteed to stay within the cap plus 43 (the
appended default hashtags and closing question may exceed the cap); the
text holds at least 3 hashtag tokens before the final paragraph-split
step (which can sever one); and the returned text always ends with
`?`. -/
theorem c1_normalize_guarantees (post : Str) (style : PostStyle) (core : Str)
    (hcore : checkAndTruncate style (pyStrip post) = .ok core) :
    normalizePost post style
      = .ok (ensureParagraphBreak (ensureQuestion (ensureHashtags core))) ∧
    minLen style ≤ (pyStrip post).length ∧
    core.length ≤ maxLen style ∧
    3 ≤ hashtagCount (ensureQuestion (ensureHashtags core)) ∧
    (ensureParagraphBreak (ensureQuestion (ensureHashtags core))).getLast?
      = some '?' ∧
    (ensureParagraphBreak (ensureQuestion (ensureHashtags core))).length
      ≤ maxLen style + 43 := by
  refine ⟨?_, checkAndTruncate_minLen style _ core hcore,
    checkAndTruncate_maxLen style _ core hcore, ?_, ?_, ?_⟩
  · rw [normalizePost, hcore]
    rfl
  · exact le_trans (three_le_hashtagCount_ensureHashtags core)
      (hashtagCount_le_ensureQuestion _)
  · exact ensureParagraphBreak_getLast _ (ensureQuestion_getLast _)
  · have hmax := checkAndTruncate_maxLen style _ core hcore
    by_cases hh : hashtagCount core < 3
    · have hmem : '\n' ∈ ensureQuestion (ensureHashtags core) :=
        newline_mem_ensureQuestion_mono _ (newline_mem_ensureHashtags core hh)
      rw [ensureParagraphBreak_of_mem _ hmem]
      have h1 := ensureQuestion_length_le (ensureHashtags core)
      have h2 := ensureHashtags_length_le core
      omega
    · have hid : ensureHashtags core = core := by
        unfold ensureHashtags
        rw [if_neg hh]
      rw [hid]
      by_cases hq : core.getLast? = some '?'
      · have hqid : ensureQuestion core = core := by
          unfold ensureQuestion
          rw [if_pos hq]
        rw [hqid]
        have := ensureParagraphBreak_length_le core
        omega
      · have hmem : '\n' ∈ ensureQuestion core := newline_mem_ensureQuestion core hq
        rw [ensureParagraphBreak_of_mem _ hmem]
        have := ensureQuestion_length_le core
        omega

set_option maxRecDepth 20000 in
/-- C1 counterexample: a raw short-style response of 950 characters is
accepted (950 over the minimum of 180), truncated to 900, and then the
appended default hashtags and closing question bring the returned text to
943 characters — above the claimed short-style maximum of 900. -/
theorem c1_counterexample :
    (normalizePost (List.replicate 950 'a') PostStyle.short).map List.length
      = .ok 943 ∧ 900 < 943 :=
  ⟨by rfl, by omega⟩

set_option maxRecDepth 20000 in
/-- Witness for C1 on a concrete 600-character analytical response. -/
theorem c1_witness :
    normalizePost (List.replicate 600 'a') PostStyle.analytical
      = .ok (ensureParagraphBreak (ensureQuestion
          (ensureHashtags (List.replicate 600 'a')))) ∧
    minLen PostStyle.analytical ≤ (pyStrip (List.replicate 600 'a')).length ∧
    (List.replicate 600 'a').length ≤ maxLen PostStyle.analytical ∧
    3 ≤ hashtagCount (ensureQuestion (ensureHashtags (List.replicate 600 'a'))) ∧
    (ensureParagraphBreak (ensureQuestion
        (ensureHashtags (List.replicate 600 'a')))).getLast? = some '?' ∧
    (ensureParagraphBreak (ensureQuestion
        (ensureHashtags (List.replicate 600 'a')))).length
      ≤ maxLen PostStyle.analytical + 43 :=
  c1_normalize_guarantees (List.replicate 600 'a') PostStyle.analytical
    (List.replicate 600 'a') (by rfl)

end AutoBot
